import Mathlib

/- Verification development for the url_fetcher repository.

 Shallow embedding conventions:
 - Go strings and byte slices are modelled as `List Char` (one `Char` per byte
   for the byte-level size accounting; the markdown pipeline operates on decoded
   runes, which `Char` models directly).
 - External collaborators are oracle parameters: the network transport, DNS
   resolution (`net.LookupIP`), the textual IP parser (`net.ParseIP`), the URL
   parser (`url.Parse`) and the HTML parser appear as function arguments or as
   already-parsed values.  Everything after those boundaries is translated from
   the repository sources.
 - Wall-clock time is passed explicitly (`now : Nat`); `fetchTimeMs` is dropped.
 - Fallible Go code returning `(value, error)` pairs is modelled with `Except`
   or with explicit result types; the one reachable slice-bounds panic is an
   explicit `panicked` outcome. -/

instance {ε α : Type} [DecidableEq ε] [DecidableEq α] : DecidableEq (Except ε α) := fun a b =>
  match a, b with
  | .error e, .error f =>
    if h : e = f then .isTrue (by rw [h]) else .isFalse (fun c => by cases c; exact h rfl)
  | .ok x, .ok y =>
    if h : x = y then .isTrue (by rw [h]) else .isFalse (fun c => by cases c; exact h rfl)
  | .error _, .ok _ => .isFalse (fun c => by cases c)
  | .ok _, .error _ => .isFalse (fun c => by cases c)

/-- Matching of `pat` against the beginning of a character list. -/
def segAt : List Char → List Char → Bool
  | [], _ => true
  | _ :: _, [] => false
  | p :: ps, c :: cs => p == c && segAt ps cs

/-- Substring test on character lists (Go `strings.Contains`). -/
def hasSeg (pat : List Char) : List Char → Bool
  | [] => segAt pat []
  | c :: cs => segAt pat (c :: cs) || hasSeg pat cs

/-- Fuelled worker for `replaceSeg`; the fuel is the length of the scanned list,
so it never runs out. -/
def replaceSegF (pat rep : List Char) : Nat → List Char → List Char
  | 0, s => s
  | _ + 1, [] => []
  | fuel + 1, c :: cs =>
    if pat ≠ [] && segAt pat (c :: cs) then
      rep ++ replaceSegF pat rep fuel ((c :: cs).drop pat.length)
    else
      c :: replaceSegF pat rep fuel cs

/-- Go `strings.ReplaceAll`: one left-to-right pass replacing non-overlapping
occurrences of `pat` with `rep`. -/
def replaceSeg (pat rep s : List Char) : List Char := replaceSegF pat rep s.length s

/-- White space as trimmed by Go `strings.TrimSpace` (the Unicode White_Space
code points). -/
def isGoSpace (c : Char) : Bool :=
  let n := c.toNat
  (9 ≤ n && n ≤ 13) || n == 32 || n == 0x85 || n == 0xA0 || n == 0x1680 ||
    (0x2000 ≤ n && n ≤ 0x200A) || n == 0x2028 || n == 0x2029 || n == 0x202F ||
    n == 0x205F || n == 0x3000

/-- Go `strings.TrimSpace`: drop white space from both ends. -/
def trimSeg (s : List Char) : List Char :=
  ((s.dropWhile isGoSpace).reverse.dropWhile isGoSpace).reverse

/-- Go `strings.Split` with separator `"\n"`. -/
def splitNl : List Char → List (List Char)
  | [] => [[]]
  | c :: cs =>
    if c = '\n' then [] :: splitNl cs
    else
      match splitNl cs with
      | [] => [[c]]
      | l :: ls => (c :: l) :: ls

/-- Concatenation of a list of character lists. -/
def catSegs : List (List Char) → List Char
  | [] => []
  | l :: ls => l ++ catSegs ls

/-- ASCII lower-casing of one character (the fragment of Go `strings.ToLower`
relevant to the engine names). -/
def asciiLower (c : Char) : Char :=
  if 'A' ≤ c ∧ c ≤ 'Z' then Char.ofNat (c.toNat + 32) else c

/-- Go `strings.ToLower` on ASCII input. -/
def lowerSeg (s : List Char) : List Char := s.map asciiLower

/-- Decimal digits of a natural number (fuelled, most significant first). -/
def natDigits : Nat → Nat → List Char
  | 0, _ => []
  | _ + 1, 0 => []
  | fuel + 1, n => natDigits fuel (n / 10) ++ [Char.ofNat (48 + n % 10)]

/-- Decimal rendering of a natural number. -/
def natToSeg (n : Nat) : List Char := if n = 0 then "0".data else natDigits (n + 1) n

/-- Decimal rendering of an integer (Go `%d`). -/
def intToSeg (i : Int) : List Char :=
  if i < 0 then "-".data ++ natToSeg i.natAbs else natToSeg i.toNat

/-- Default maximum content length, `types.DefaultMaxContentLength` (10 MiB). -/
def defaultMaxContentLength : Int := 10 * 1024 * 1024

/-- Model of `types.FetchResponse`.  `fetchTimeMs` (wall-clock time) is external
and omitted. -/
structure FetchResponse where
  url : List Char
  engine : List Char
  statusCode : Int
  contentType : List Char := []
  content : List Char
  format : List Char
  title : List Char := []
  warnings : List (List Char) := []
  chromeAvailable : Bool := false
deriving DecidableEq

/-- Model of `types.ErrorResponse`: status 0, the error message as content. -/
def errorResponse (url engine msg : List Char) : FetchResponse :=
  { url := url, engine := engine, statusCode := 0, content := msg, format := "text".data }

/-- Model of `types.CacheEntry`.  `expiresAt` is an explicit clock value. -/
structure CacheEntry where
  response : FetchResponse
  expiresAt : Nat
deriving DecidableEq

/-- Model of `cache.Cache`: the entry map as an association list plus the TTL
(`ttl = 0` disables caching, as in `NewCache`). -/
structure CacheState where
  entries : List (List Char × CacheEntry)
  ttl : Nat
deriving DecidableEq

/-- Cache key, `generateKey`: `url + "|" + engine + "|" + format`. -/
def genKey (url engine format : List Char) : List Char :=
  url ++ "|".data ++ engine ++ "|".data ++ format

/-- Map lookup on the association list. -/
def lookupAL (k : List Char) : List (List Char × CacheEntry) → Option CacheEntry
  | [] => none
  | (k2, v) :: rest => if k2 = k then some v else lookupAL k rest

/-- Map insertion (replace the existing binding, else append), matching Go map
assignment so that `len` counts distinct keys. -/
def insertAL (k : List Char) (v : CacheEntry) :
    List (List Char × CacheEntry) → List (List Char × CacheEntry)
  | [] => [(k, v)]
  | (k2, v2) :: rest => if k2 = k then (k, v) :: rest else (k2, v2) :: insertAL k v rest

/-- Map deletion. -/
def eraseAL (k : List Char) (l : List (List Char × CacheEntry)) :
    List (List Char × CacheEntry) :=
  l.filter (fun e => decide (e.1 ≠ k))

/-- Model of `Cache.Get`: miss when disabled, lazy deletion of an expired entry
(`time.Now().After(expiresAt)` is a strict comparison).  Returns the result and
the updated cache. -/
def cacheGet (c : CacheState) (now : Nat) (url engine format : List Char) :
    Option FetchResponse × CacheState :=
  if c.ttl = 0 then (none, c)
  else
    match lookupAL (genKey url engine format) c.entries with
    | none => (none, c)
    | some entry =>
      if entry.expiresAt < now then
        (none, { c with entries := eraseAL (genKey url engine format) c.entries })
      else (some entry.response, c)

/-- Model of `Cache.Set`: no-op when disabled or for error responses
(`statusCode == 0 || statusCode >= 400`). -/
def cacheSet (c : CacheState) (now : Nat) (url engine format : List Char)
    (response : FetchResponse) : CacheState :=
  if c.ttl = 0 then c
  else if response.statusCode = 0 ∨ 400 ≤ response.statusCode then c
  else
    { c with entries :=
        insertAL (genKey url engine format) ⟨response, now + c.ttl⟩ c.entries }

/-- Model of `Cache.Size`: `len(c.entries)`. -/
def cacheSize (c : CacheState) : Nat := c.entries.length

/-- Go `net.IP` values as produced by `net.ParseIP`: a 4-byte IPv4 address or a
16-byte IPv6 address (bytes as `Nat`s below 256). -/
inductive IPAddr where
  | v4 (a b c d : Nat)
  | v6 (bytes : List Nat)

/-- Go `IP.To4`: the 4-byte form of an IPv4 or IPv4-mapped address. -/
def ipTo4 : IPAddr → Option (Nat × Nat × Nat × Nat)
  | .v4 a b c d => some (a, b, c, d)
  | .v6 bs =>
    match bs with
    | [0, 0, 0, 0, 0, 0, 0, 0, 0, 0, 0xff, 0xff, a, b, c, d] => some (a, b, c, d)
    | _ => none

/-- Go `IP.IsLoopback`: 127.0.0.0/8 or ::1. -/
def isLoopback (ip : IPAddr) : Bool :=
  match ipTo4 ip with
  | some (a, _, _, _) => a == 127
  | none =>
    match ip with
    | .v6 bs => bs == [0, 0, 0, 0, 0, 0, 0, 0, 0, 0, 0, 0, 0, 0, 0, 1]
    | .v4 _ _ _ _ => false

/-- Go `IP.IsPrivate`: 10/8, 172.16/12, 192.168/16, or fc00::/7. -/
def isPrivate (ip : IPAddr) : Bool :=
  match ipTo4 ip with
  | some (a, b, _, _) => a == 10 || (a == 172 && b &&& 0xf0 == 16) || (a == 192 && b == 168)
  | none =>
    match ip with
    | .v6 bs => bs.length == 16 && (bs.headD 0) &&& 0xfe == 0xfc
    | .v4 _ _ _ _ => false

/-- Go `IP.IsLinkLocalUnicast`: 169.254/16 or fe80::/10. -/
def isLinkLocalUnicast (ip : IPAddr) : Bool :=
  match ipTo4 ip with
  | some (a, b, _, _) => a == 169 && b == 254
  | none =>
    match ip with
    | .v6 bs => bs.length == 16 && bs.headD 0 == 0xfe && (bs.getD 1 0) &&& 0xc0 == 0x80
    | .v4 _ _ _ _ => false

/-- Byte-wise masked equality against a network base address: the first `bits`
bits must agree (Go `IPNet.Contains` after `ParseCIDR`); differing lengths never
match, as in Go. -/
def maskedEq : List Nat → List Nat → Nat → Bool
  | [], [], _ => true
  | b :: bs, x :: xs, bits =>
    let mb := if 8 ≤ bits then 0xff else 0xff - (2 ^ (8 - bits) - 1)
    (x &&& mb == b &&& mb) && maskedEq bs xs (bits - 8)
  | _, _, _ => false

/-- A parsed CIDR network: base bytes plus prefix length. -/
inductive CIDRNet where
  | n4 (a b c d : Nat) (bits : Nat)
  | n6 (base : List Nat) (bits : Nat)

/-- Go `IPNet.Contains`: the queried address is reduced with `To4` first, so
4-byte networks only match (possibly mapped) IPv4 addresses and 16-byte
networks only match plain IPv6 addresses. -/
def cidrContains (net : CIDRNet) (ip : IPAddr) : Bool :=
  match net with
  | .n4 a b c d bits =>
    match ipTo4 ip with
    | some (x0, x1, x2, x3) => maskedEq [a, b, c, d] [x0, x1, x2, x3] bits
    | none => false
  | .n6 base bits =>
    match ipTo4 ip with
    | some _ => false
    | none =>
      match ip with
      | .v6 bs => maskedEq base bs bits
      | .v4 _ _ _ _ => false

/-- The blocked ranges of `isLocalOrPrivateIP` (the `privateRanges` literals
after `net.ParseCIDR`). -/
def privateRanges : List CIDRNet :=
  [.n4 10 0 0 0 8, .n4 172 16 0 0 12, .n4 192 168 0 0 16, .n4 169 254 0 0 16,
   .n6 (0xfc :: List.replicate 15 0) 7, .n6 (0xfe :: 0x80 :: List.replicate 14 0) 10]

/-- Classification applied by `isLocalOrPrivateIP` to a resolved address: any of
the six CIDR ranges, then `IsLoopback || IsPrivate || IsLinkLocalUnicast`. -/
def classifyIP (ip : IPAddr) : Bool :=
  privateRanges.any (fun netw => cidrContains netw ip) ||
    (isLoopback ip || isPrivate ip || isLinkLocalUnicast ip)

/-- Model of `isLocalOrPrivateIP`: literal-hostname check, then `net.ParseIP`
(oracle `parseIP`), then the first DNS address (oracle `lookupIP`; `none` models
a resolution failure or empty answer, which falls open to `false`). -/
def isLocalOrPrivateIP (parseIP lookupIP : List Char → Option IPAddr)
    (host : List Char) : Bool :=
  if host = "localhost".data || host = "127.0.0.1".data || host = "::1".data then true
  else
    match parseIP host with
    | some ip => classifyIP ip
    | none =>
      match lookupIP host with
      | some ip => classifyIP ip
      | none => false

/-- Admission errors of `validateURL`. -/
inductive AdmErr where
  | invalidURL
  | unsupportedScheme (scheme : List Char)
  | localBlocked
deriving DecidableEq

/-- Error messages of `validateURL` (the wrapped parse error of the invalid-URL
case is abbreviated). -/
def admErrMsg : AdmErr → List Char
  | .invalidURL => "invalid URL".data
  | .unsupportedScheme s => "unsupported scheme: ".data ++ s
  | .localBlocked => "access to local/private IP addresses is blocked".data

/-- The scheme and hostname of a parsed URL (`url.Parse` output, external). -/
structure ParsedURL where
  scheme : List Char
  hostname : List Char
deriving DecidableEq

/-- Model of `validateURL`: `parsed` is the `url.Parse` outcome (`none` = parse
error); scheme check, then the block-local check. -/
def validateURL (blockLocal : Bool) (parseIP lookupIP : List Char → Option IPAddr)
    (parsed : Option ParsedURL) : Except AdmErr Unit :=
  match parsed with
  | none => .error .invalidURL
  | some u =>
    if u.scheme ≠ "http".data ∧ u.scheme ≠ "https".data then
      .error (.unsupportedScheme u.scheme)
    else if blockLocal && isLocalOrPrivateIP parseIP lookupIP u.hostname then
      .error .localBlocked
    else .ok ()

/-- One transport response: status line plus the body byte stream as seen after
transparent gzip decompression (the decompressor is external). -/
structure HTTPResp where
  status : Int
  statusText : List Char := []
  contentType : List Char := []
  body : List Char := []
deriving DecidableEq

/-- Retry loop of `HTTPEngine.Fetch` (`maxRetries = 2`, attempts 0..2):
transport errors and 5xx responses are retried, anything else stops the loop.
The inter-attempt sleep is external.  `net` gives attempt n's outcome. -/
def attemptLoop (net : Nat → Except (List Char) HTTPResp) :
    Nat → Nat → Except (List Char) HTTPResp
  | _, 0 => .error []
  | attempt, fuel + 1 =>
    match net attempt with
    | .error e => if attempt == 2 then .error e else attemptLoop net (attempt + 1) fuel
    | .ok resp =>
      if 500 ≤ resp.status ∧ attempt < 2 then attemptLoop net (attempt + 1) fuel
      else .ok resp

/-- The retry loop entered with attempt 0 and enough fuel for all 3 attempts. -/
def doRequest (net : Nat → Except (List Char) HTTPResp) : Except (List Char) HTTPResp :=
  attemptLoop net 0 3

/-- Outcome of `readResponseBody`: the body, or the truncated body together
with the size error, or the slice-bounds panic. -/
inductive ReadResult where
  | ok (body : List Char)
  | tooLarge (truncated : List Char) (msg : List Char)
  | panicked
deriving DecidableEq

/-- The `readResponseBody` size error message. -/
def tooLargeMsg (maxContentLength : Int) : List Char :=
  "content exceeds maximum length of ".data ++ intToSeg maxContentLength ++ " bytes".data

/-- Go `io.LimitReader` followed by `io.ReadAll`: at most `n` bytes, nothing
when the limit is not positive. -/
def intTake (l : List Char) (n : Int) : List Char := if n ≤ 0 then [] else l.take n.toNat

/-- Model of `readResponseBody`: a size-limited read of `maxContentLength + 1`
bytes, then the truncation `body[:maxContentLength]`; in Go that slice
expression panics when the index is negative, which the limited read makes
reachable exactly when `maxContentLength < 0`. -/
def readResponseBody (stream : List Char) (maxContentLength : Int) : ReadResult :=
  let body := intTake stream (maxContentLength + 1)
  if maxContentLength < (body.length : Int) then
    if maxContentLength < 0 then .panicked
    else .tooLarge (body.take maxContentLength.toNat) (tooLargeMsg maxContentLength)
  else .ok body

/-- Outcome of the engine `Fetch` model: the Go return pair, or a runtime
panic. -/
inductive FetchOutcome where
  | panicked
  | result (response : FetchResponse) (err : Option (List Char))
deriving DecidableEq

/-- Response content for a persistent 5xx, from `HTTPEngine.Fetch`. -/
def serverRespMsg (status : Int) : List Char :=
  "server error (status ".data ++ intToSeg status ++
    ") after 2 retries. try using engine=\x27chrome\x27".data

/-- Returned error for a persistent 5xx. -/
def serverErrMsg (status : Int) : List Char :=
  "server returned status ".data ++ intToSeg status

/-- Response content for a 4xx. -/
def clientRespMsg (status : Int) (statusText : List Char) : List Char :=
  "client error (status ".data ++ intToSeg status ++ "): ".data ++ statusText

/-- Returned error for a 4xx. -/
def clientErrMsg (statusText : List Char) : List Char :=
  "client error: ".data ++ statusText

/-- Model of `HTTPEngine.Fetch` after URL parsing: validation, the retry loop,
the status checks, then the size-limited body read.  On any error the function
returns `types.ErrorResponse` (whose content is the error message) together
with the error. -/
def httpEngineFetch (blockLocal : Bool) (parseIP lookupIP : List Char → Option IPAddr)
    (urlStr : List Char) (parsed : Option ParsedURL)
    (net : Nat → Except (List Char) HTTPResp) (maxContentLength : Int) : FetchOutcome :=
  match validateURL blockLocal parseIP lookupIP parsed with
  | .error e => .result (errorResponse urlStr "http".data (admErrMsg e)) (some (admErrMsg e))
  | .ok _ =>
    match doRequest net with
    | .error e => .result (errorResponse urlStr "http".data e) (some e)
    | .ok resp =>
      if 500 ≤ resp.status then
        .result (errorResponse urlStr "http".data (serverRespMsg resp.status))
          (some (serverErrMsg resp.status))
      else if 400 ≤ resp.status then
        .result (errorResponse urlStr "http".data (clientRespMsg resp.status resp.statusText))
          (some (clientErrMsg resp.statusText))
      else
        match readResponseBody resp.body maxContentLength with
        | .panicked => .panicked
        | .tooLarge _ msg => .result (errorResponse urlStr "http".data msg) (some msg)
        | .ok body =>
          .result { url := urlStr, engine := "http".data, statusCode := resp.status,
                    contentType := resp.contentType, content := body,
                    format := "html".data } none

/-- Model of `types.FetchRequest`. -/
structure FetchRequest where
  url : List Char
  engine : List Char := []
  format : List Char := []
  maxContentLength : Int := 0
deriving DecidableEq

/-- The `max_content_length` default rule used by `Fetcher.Fetch` and
`fetchURL`: only the exact value 0 is replaced by the default. -/
def normalizeMaxContentLength (m : Int) : Int :=
  if m = 0 then defaultMaxContentLength else m

/-- Request normalization of `Fetcher.Fetch`: defaults for empty engine and
format, the `maxContentLength` rule, then the engine name lower-cased. -/
def normalizeRequest (r : FetchRequest) : FetchRequest :=
  { url := r.url,
    engine := lowerSeg (if r.engine = [] then "http".data else r.engine),
    format := if r.format = [] then "text".data else r.format,
    maxContentLength := normalizeMaxContentLength r.maxContentLength }

/-- The warning appended on the Chrome-to-HTTP fallback. -/
def fallbackWarning : List Char := "Chrome not available, falling back to HTTP engine".data

/-- Model of `Fetcher.Fetch`: engine dispatch with the Chrome-to-HTTP fallback.
The engines are oracles: `httpResult` and `chromeResult` stand for what
`httpEngine.Fetch` and `chromeEngine.Fetch` return for this request.  The final
`(none, none)` case would dereference a nil response in Go; it is unreachable
for the real engines, which never return a nil response with a nil error. -/
def fetcherFetch (chromeAvailable : Bool)
    (httpResult chromeResult : Option FetchResponse × Option (List Char))
    (req : FetchRequest) : Option FetchResponse × Option (List Char) :=
  let r := normalizeRequest req
  let picked : Option (Option FetchResponse × Option (List Char)) :=
    if r.engine = "http".data then some httpResult
    else if r.engine = "chrome".data then
      if chromeAvailable then some chromeResult
      else
        some (match httpResult with
          | (some resp, e) =>
            (some { resp with
                      engine := "http".data,
                      warnings := resp.warnings ++ [fallbackWarning] }, e)
          | (none, e) => (none, e))
    else none
  match picked with
  | none => (none, some ("unsupported engine: ".data ++ r.engine))
  | some (resp?, some e) => (resp?, some e)
  | some (some resp, none) =>
    (some { resp with chromeAvailable := chromeAvailable, format := r.format }, none)
  | some (none, none) => (none, none)

/-- Responses of the abstract network driving the redirect model. -/
inductive NetResp (α : Type) where
  | redirect (loc : α)
  | final (status : Int)

/-- The `CheckRedirect` policy installed by `NewHTTPEngine`: fail once
`len(via) >= 5`. -/
def checkRedirectStops (viaLen : Nat) : Bool := decide (5 ≤ viaLen)

/-- Model of the redirect-following loop of Go `http.Client.Do`: `sent` counts
the requests already issued (the `via` list); before following a redirect the
client consults `CheckRedirect` with the requests sent so far, including the
one just answered. -/
def clientRedirectLoop {α : Type} (net : α → NetResp α) :
    α → Nat → Nat → Except (List Char) Int
  | _, _, 0 => .error []
  | u, sent, fuel + 1 =>
    match net u with
    | .final status => .ok status
    | .redirect loc =>
      if checkRedirectStops (sent + 1) then .error "too many redirects".data
      else clientRedirectLoop net loc (sent + 1) fuel

/-- A redirect chain with `n` redirects: URL `k` redirects to `k + 1` for
`k < n`; URL `n` answers 200. -/
def netChain (n : Nat) : Nat → NetResp Nat :=
  fun k => if k < n then .redirect (k + 1) else .final 200

/-- Counting abstraction of the browser pool: `free` tokens in the buffered
channel `pool.available`, `active` fetches holding a token, `waiting` fetches
blocked on the channel receive in `ChromeEngine.Fetch`. -/
structure PoolState where
  free : Nat
  active : Nat
  waiting : Nat
deriving DecidableEq

/-- Transitions of the pool protocol: a fetch arrives (`launch`), a blocked
fetch takes a token from the channel (`acquire`), a fetch finishes and returns
its token (`release`, the deferred channel send). -/
inductive PoolStep : PoolState → PoolState → Prop
  | launch (s : PoolState) : PoolStep s ⟨s.free, s.active, s.waiting + 1⟩
  | acquire (s : PoolState) (hf : 0 < s.free) (hw : 0 < s.waiting) :
      PoolStep s ⟨s.free - 1, s.active + 1, s.waiting - 1⟩
  | release (s : PoolState) (ha : 0 < s.active) :
      PoolStep s ⟨s.free + 1, s.active - 1, s.waiting⟩

/-- States reachable from a pool freshly built by `newBrowserPool size`: the
channel holds `size` tokens, nothing is active or waiting. -/
inductive PoolReach (size : Nat) : PoolState → Prop
  | init : PoolReach size ⟨size, 0, 0⟩
  | step {s t : PoolState} : PoolReach size s → PoolStep s t → PoolReach size t

/-- Parsed HTML nodes (output of the external HTML parser): text nodes and
elements with attributes and children.  Comment and doctype nodes, which the
renderer ignores, are not represented. -/
inductive HNode where
  | text (s : List Char)
  | elem (tag : List Char) (attrs : List (List Char × List Char)) (children : List HNode)

/-- goquery `Selection.Attr`: the first attribute with the given key. -/
def attrLookup (key : List Char) : List (List Char × List Char) → Option (List Char)
  | [] => none
  | (k, v) :: rest => if k = key then some v else attrLookup key rest

mutual
/-- goquery `Selection.Text` on one node: the concatenated raw data of all text
nodes of the subtree. -/
def nodeText : HNode → List Char
  | .text s => s
  | .elem _ _ cs => nodesText cs
/-- goquery `Selection.Text` over a node list. -/
def nodesText : List HNode → List Char
  | [] => []
  | n :: ns => nodeText n ++ nodesText ns
end

mutual
/-- Model of `Processor.processNode` on one child node: text nodes are trimmed
and written when non-empty; elements map to Markdown syntax; `parentTag` is the
tag of the enclosing element (for the `li` ordered/unordered decision). -/
def renderNode (depth : Nat) (parentTag : List Char) : HNode → List Char
  | .text s =>
    let t := trimSeg s
    if t = [] then [] else t
  | .elem tag attrs children =>
    if tag = "h1".data then "\n\n# ".data ++ renderNodes depth tag children ++ "\n\n".data
    else if tag = "h2".data then "\n\n## ".data ++ renderNodes depth tag children ++ "\n\n".data
    else if tag = "h3".data then "\n\n### ".data ++ renderNodes depth tag children ++ "\n\n".data
    else if tag = "h4".data then "\n\n#### ".data ++ renderNodes depth tag children ++ "\n\n".data
    else if tag = "h5".data then "\n\n##### ".data ++ renderNodes depth tag children ++ "\n\n".data
    else if tag = "h6".data then "\n\n###### ".data ++ renderNodes depth tag children ++ "\n\n".data
    else if tag = "p".data then "\n\n".data ++ renderNodes depth tag children ++ "\n\n".data
    else if tag = "br".data then "\n".data
    else if tag = "strong".data ∨ tag = "b".data then
      "**".data ++ renderNodes depth tag children ++ "**".data
    else if tag = "em".data ∨ tag = "i".data then
      "*".data ++ renderNodes depth tag children ++ "*".data
    else if tag = "code".data then
      "\x60".data ++ renderNodes depth tag children ++ "\x60".data
    else if tag = "pre".data then
      "\n\n\x60\x60\x60\n".data ++ renderNodes depth tag children ++ "\n\x60\x60\x60\n\n".data
    else if tag = "a".data then
      match attrLookup "href".data attrs with
      | some href =>
        if href ≠ [] then
          "[".data ++ renderNodes depth tag children ++ "](".data ++ href ++ ")".data
        else renderNodes depth tag children
      | none => renderNodes depth tag children
    else if tag = "ul".data ∨ tag = "ol".data then
      "\n".data ++ renderNodes (depth + 1) tag children
    else if tag = "li".data then
      "\n".data ++ List.replicate (2 * depth) ' ' ++
        (if parentTag = "ol".data then "1. ".data else "- ".data) ++
        renderNodes depth tag children
    else if tag = "blockquote".data then
      catSegs ((splitNl (nodesText children)).map
        (fun line => if trimSeg line = [] then [] else "\n> ".data ++ trimSeg line)) ++
        "\n".data
    else if tag = "hr".data then "\n\n---\n\n".data
    else if tag = "img".data then
      match attrLookup "src".data attrs with
      | some src =>
        if src ≠ [] then
          "![".data ++ ((attrLookup "alt".data attrs).getD []) ++ "](".data ++ src ++ ")".data
        else []
      | none => []
    else renderNodes depth tag children
/-- Model of `Processor.processNode` over the contents of a selection. -/
def renderNodes (depth : Nat) (parentTag : List Char) : List HNode → List Char
  | [] => []
  | n :: ns => renderNode depth parentTag n ++ renderNodes depth parentTag ns
end

/-- Model of `Processor.htmlToMarkdown`: render the document, one
`strings.ReplaceAll` pass collapsing three newlines to two, then
`strings.TrimSpace`. -/
def htmlToMarkdown (roots : List HNode) : List Char :=
  trimSeg (replaceSeg "\n\n\n".data "\n\n".data (renderNodes 0 [] roots))

/-- Parse tree, as built by the HTML parser, of the document
`<h1>A</h1><p>B <strong>C</strong></p>`. -/
def docC3 : List HNode :=
  [.elem "html".data [] [.elem "head".data [] [],
    .elem "body".data [] [
      .elem "h1".data [] [.text "A".data],
      .elem "p".data [] [.text "B ".data, .elem "strong".data [] [.text "C".data]]]]]

/-- Parse tree of `<p>x</p><p>y</p>`. -/
def docTwoPars : List HNode :=
  [.elem "html".data [] [.elem "head".data [] [],
    .elem "body".data [] [
      .elem "p".data [] [.text "x".data],
      .elem "p".data [] [.text "y".data]]]]

/-- The address class named by claim C1: one of the literal hostnames, or a
textual IP address that is loopback, link-local, or inside the six blocked
ranges. -/
def localHostClass (parseIP : List Char → Option IPAddr) (host : List Char) : Prop :=
  host = "localhost".data ∨ host = "127.0.0.1".data ∨ host = "::1".data ∨
    ∃ ip, parseIP host = some ip ∧
      (isLoopback ip || isLinkLocalUnicast ip ||
        privateRanges.any (fun netw => cidrContains netw ip)) = true

/-- Looking up a key just inserted finds the inserted entry. -/
theorem lookupAL_insertAL (k : List Char) (v : CacheEntry)
    (l : List (List Char × CacheEntry)) : lookupAL k (insertAL k v l) = some v := by
  induction l with
  | nil => simp [insertAL, lookupAL]
  | cons hd tl ih =>
    obtain ⟨k2, v2⟩ := hd
    by_cases h : k2 = k
    · simp [insertAL, lookupAL, h]
    · simp [insertAL, lookupAL, h, ih]

/-- Looking up a key just deleted misses. -/
theorem lookupAL_eraseAL (k : List Char) (l : List (List Char × CacheEntry)) :
    lookupAL k (eraseAL k l) = none := by
  induction l with
  | nil => simp [eraseAL, lookupAL]
  | cons hd tl ih =>
    obtain ⟨k2, v2⟩ := hd
    by_cases h : k2 = k
    · simpa [eraseAL, lookupAL, h] using ih
    · simpa [eraseAL, lookupAL, h] using ih

/-- Claim C5: a response with `statusCode == 0` or `statusCode >= 400` is never
stored: `Cache.Set` leaves the cache unchanged and `Size` does not increase. -/
theorem cache_set_rejects_error_responses
    (c : CacheState) (now : Nat) (url engine format : List Char) (r : FetchResponse)
    (h : r.statusCode = 0 ∨ 400 ≤ r.statusCode) :
    cacheSet c now url engine format r = c ∧
    cacheSize (cacheSet c now url engine format r) = cacheSize c := by
  have hset : cacheSet c now url engine format r = c := by
    unfold cacheSet
    by_cases h0 : c.ttl = 0 <;> simp [h0, h]
  exact ⟨hset, by rw [hset]⟩

/-- Concrete instance of `cache_set_rejects_error_responses`: storing an error
response (status 0) in an enabled empty cache changes nothing. -/
theorem cache_set_rejects_error_responses_witness :
    cacheSet ⟨[], 1000⟩ 5 "u".data "http".data "text".data
        (errorResponse "u".data "http".data "boom".data) = ⟨[], 1000⟩ ∧
    cacheSize (cacheSet ⟨[], 1000⟩ 5 "u".data "http".data "text".data
        (errorResponse "u".data "http".data "boom".data)) = cacheSize ⟨[], 1000⟩ :=
  cache_set_rejects_error_responses ⟨[], 1000⟩ 5 "u".data "http".data "text".data
    (errorResponse "u".data "http".data "boom".data) (Or.inl rfl)

/-- Claim C6: with caching enabled, storing a cacheable response and reading the
same key back immediately hits and returns the stored response (hence identical
content); once the entry expiry has passed, the read misses and deletes the
entry. -/
theorem cache_round_trip
    (c : CacheState) (now : Nat) (url engine format : List Char) (r : FetchResponse)
    (httl : 0 < c.ttl)
    (hok : ¬ (r.statusCode = 0 ∨ 400 ≤ r.statusCode)) :
    (cacheGet (cacheSet c now url engine format r) now url engine format).1 = some r ∧
    ((cacheGet (cacheSet c now url engine format r) now url engine format).1.map
        FetchResponse.content) = some r.content ∧
    (∀ later, now + c.ttl < later →
      (cacheGet (cacheSet c now url engine format r) later url engine format).1 = none ∧
      lookupAL (genKey url engine format)
        (cacheGet (cacheSet c now url engine format r) later url engine format).2.entries =
          none) := by
  have hne : c.ttl ≠ 0 := Nat.pos_iff_ne_zero.mp httl
  have hset : cacheSet c now url engine format r =
      { c with entries :=
          insertAL (genKey url engine format) ⟨r, now + c.ttl⟩ c.entries } := by
    unfold cacheSet
    simp [hne, hok]
  have hlook : lookupAL (genKey url engine format)
      (cacheSet c now url engine format r).entries = some ⟨r, now + c.ttl⟩ := by
    rw [hset]
    exact lookupAL_insertAL _ _ _
  have httlset : (cacheSet c now url engine format r).ttl = c.ttl := by rw [hset]
  constructor
  · unfold cacheGet
    simp only [httlset, hne, if_false, hlook]
    have : ¬ ((⟨r, now + c.ttl⟩ : CacheEntry).expiresAt < now) := by
      simp only []
      omega
    simp [this]
  constructor
  · unfold cacheGet
    simp only [httlset, hne, if_false, hlook]
    have : ¬ ((⟨r, now + c.ttl⟩ : CacheEntry).expiresAt < now) := by
      simp only []
      omega
    simp [this]
  · intro later hlater
    have hexp : (⟨r, now + c.ttl⟩ : CacheEntry).expiresAt < later := by
      simp only []
      omega
    unfold cacheGet
    simp only [httlset, hne, if_false, hlook, hexp, if_true]
    constructor
    · trivial
    · simp [hset, lookupAL_eraseAL]

/-- Concrete instance of `cache_round_trip`: an enabled cache with TTL 10,
a 200 response stored at time 0, read back at time 0 and at time 11. -/
theorem cache_round_trip_witness :
    (cacheGet (cacheSet ⟨[], 10⟩ 0 "u".data "http".data "text".data
        { url := "u".data, engine := "http".data, statusCode := 200,
          content := "body".data, format := "text".data }) 0
        "u".data "http".data "text".data).1 =
      some { url := "u".data, engine := "http".data, statusCode := 200,
             content := "body".data, format := "text".data } ∧
    (cacheGet (cacheSet ⟨[], 10⟩ 0 "u".data "http".data "text".data
        { url := "u".data, engine := "http".data, statusCode := 200,
          content := "body".data, format := "text".data }) 11
        "u".data "http".data "text".data).1 = none := by
  have h := cache_round_trip ⟨[], 10⟩ 0 "u".data "http".data "text".data
    { url := "u".data, engine := "http".data, statusCode := 200,
      content := "body".data, format := "text".data } (by decide) (by decide)
  exact ⟨h.1, (h.2.2 11 (by decide)).1⟩

/-- Claim C1 (amended): for a fetch URL whose scheme is http or https and whose
hostname is one of the literals or a textual IP in the blocked class, URL
validation with blockLocal fails with the local-address-blocked error, passes
without blockLocal, and the blocked fetch has the same outcome for every
network behavior (no request is issued). -/
theorem url_admission_blocks_local_hosts
    (parseIP lookupIP : List Char → Option IPAddr) (u : ParsedURL)
    (hscheme : u.scheme = "http".data ∨ u.scheme = "https".data)
    (hhost : localHostClass parseIP u.hostname) :
    validateURL true parseIP lookupIP (some u) = .error .localBlocked ∧
    validateURL false parseIP lookupIP (some u) = .ok () ∧
    ∀ urlStr net maxLen,
      httpEngineFetch true parseIP lookupIP urlStr (some u) net maxLen =
        .result (errorResponse urlStr "http".data (admErrMsg .localBlocked))
          (some (admErrMsg .localBlocked)) := by
  have hloc : isLocalOrPrivateIP parseIP lookupIP u.hostname = true := by
    unfold isLocalOrPrivateIP
    rcases hhost with h | h | h | ⟨ip, hip, hclass⟩
    · simp [h]
    · simp [h]
    · simp [h]
    · have hcls : classifyIP ip = true := by
        unfold classifyIP
        simp only [Bool.or_eq_true] at hclass ⊢
        tauto
      by_cases hlit : (u.hostname = "localhost".data || u.hostname = "127.0.0.1".data ||
          u.hostname = "::1".data) = true
      · simp [hlit]
      · simp only [hlit, if_false]
        rw [hip]
        exact hcls
  have hs : ¬ (u.scheme ≠ "http".data ∧ u.scheme ≠ "https".data) := by
    rcases hscheme with h | h <;> rw [h] <;> decide
  have hval : validateURL true parseIP lookupIP (some u) = .error .localBlocked := by
    simp only [validateURL]
    rw [if_neg hs, if_pos (by simp [hloc])]
  refine ⟨hval, ?_, ?_⟩
  · simp only [validateURL]
    rw [if_neg hs, if_neg (by simp)]
  · intro urlStr net maxLen
    unfold httpEngineFetch
    rw [hval]

/-- Claim C1 counterexample: the URL `ftp://127.0.0.1/` has hostname
`127.0.0.1`, yet validation with blockLocal does not fail with the
local-address-blocked error (the scheme check fires first), and validation
without blockLocal does not pass. -/
theorem url_admission_scheme_counterexample :
    ¬ (validateURL true (fun _ => none) (fun _ => none)
          (some ⟨"ftp".data, "127.0.0.1".data⟩) = .error .localBlocked ∧
       validateURL false (fun _ => none) (fun _ => none)
          (some ⟨"ftp".data, "127.0.0.1".data⟩) = .ok ()) := by decide

/-- Concrete instance of `url_admission_blocks_local_hosts`: an http URL with
hostname `10.0.0.1` when the IP parser resolves it to the address 10.0.0.1. -/
theorem url_admission_blocks_local_hosts_witness :
    validateURL true (fun _ => some (.v4 10 0 0 1)) (fun _ => none)
        (some ⟨"http".data, "10.0.0.1".data⟩) = .error .localBlocked ∧
    validateURL false (fun _ => some (.v4 10 0 0 1)) (fun _ => none)
        (some ⟨"http".data, "10.0.0.1".data⟩) = .ok () ∧
    httpEngineFetch true (fun _ => some (.v4 10 0 0 1)) (fun _ => none)
        "http://10.0.0.1/".data (some ⟨"http".data, "10.0.0.1".data⟩)
        (fun _ => .error []) 100 =
      .result (errorResponse "http://10.0.0.1/".data "http".data (admErrMsg .localBlocked))
        (some (admErrMsg .localBlocked)) := by
  have h := url_admission_blocks_local_hosts (fun _ => some (.v4 10 0 0 1)) (fun _ => none)
    ⟨"http".data, "10.0.0.1".data⟩ (Or.inl rfl)
    (Or.inr (Or.inr (Or.inr ⟨.v4 10 0 0 1, rfl, by decide⟩)))
  exact ⟨h.1, h.2.1, h.2.2 _ _ _⟩

/-- Claim C2 counterexample: fetching a 3-byte body with maxContentLength 2
returns the size error, but the attached response carries the error message as
content, not the 2-byte truncated body. -/
theorem http_fetch_truncation_counterexample :
    httpEngineFetch false (fun _ => none) (fun _ => none) "http://e.com/big".data
        (some ⟨"http".data, "e.com".data⟩)
        (fun _ => .ok { status := 200, body := "ABC".data }) 2 =
      .result (errorResponse "http://e.com/big".data "http".data (tooLargeMsg 2))
        (some (tooLargeMsg 2)) ∧
    (errorResponse "http://e.com/big".data "http".data (tooLargeMsg 2)).content ≠
      "AB".data := by decide

/-- Claim C2 (amended): when the body exceeds `maxContentLength` (non-negative),
`readResponseBody` returns the body truncated to exactly `maxContentLength`
bytes together with the size error, but `HTTPEngine.Fetch` discards that
truncated body: it returns the error response, whose content is the error
message. -/
theorem http_fetch_truncation_behavior
    (stream : List Char) (maxLen : Int) (h0 : 0 ≤ maxLen)
    (hlen : maxLen < (stream.length : Int)) :
    readResponseBody stream maxLen =
      .tooLarge (stream.take maxLen.toNat) (tooLargeMsg maxLen) ∧
    (stream.take maxLen.toNat).length = maxLen.toNat ∧
    ∀ (parseIP lookupIP : List Char → Option IPAddr) (urlStr : List Char) (u : ParsedURL)
      (ct st : List Char),
      u.scheme = "http".data ∨ u.scheme = "https".data →
      httpEngineFetch false parseIP lookupIP urlStr (some u)
          (fun _ => .ok (HTTPResp.mk 200 st ct stream)) maxLen =
        .result (errorResponse urlStr "http".data (tooLargeMsg maxLen))
          (some (tooLargeMsg maxLen)) := by
  have hpos : ¬ (maxLen + 1 ≤ 0) := by omega
  have hbody : intTake stream (maxLen + 1) = stream.take (maxLen + 1).toNat := by
    unfold intTake
    rw [if_neg hpos]
  have hblen : (stream.take (maxLen + 1).toNat).length = maxLen.toNat + 1 := by
    rw [List.length_take]
    omega
  have hread : readResponseBody stream maxLen =
      .tooLarge (stream.take maxLen.toNat) (tooLargeMsg maxLen) := by
    unfold readResponseBody
    rw [hbody, if_pos (by rw [hblen]; omega), if_neg (by omega), List.take_take]
    have : min maxLen.toNat (maxLen + 1).toNat = maxLen.toNat := by omega
    rw [this]
  refine ⟨hread, by rw [List.length_take]; omega, ?_⟩
  intro parseIP lookupIP urlStr u ct st hscheme
  have hs : ¬ (u.scheme ≠ "http".data ∧ u.scheme ≠ "https".data) := by
    rcases hscheme with h | h <;> rw [h] <;> decide
  have hval : validateURL false parseIP lookupIP (some u) = .ok () := by
    simp only [validateURL]
    rw [if_neg hs, if_neg (by simp)]
  have hreq : doRequest (fun _ => Except.ok (HTTPResp.mk 200 st ct stream)) =
      .ok (HTTPResp.mk 200 st ct stream) := by
    simp [doRequest, attemptLoop]
  simp [httpEngineFetch, hval, hreq, hread]

/-- Concrete instance of `http_fetch_truncation_behavior`: a 5-byte body read
with maxContentLength 3. -/
theorem http_fetch_truncation_behavior_witness :
    readResponseBody "ABCDE".data 3 = .tooLarge ("ABCDE".data.take 3) (tooLargeMsg 3) ∧
    ("ABCDE".data.take 3).length = 3 ∧
    httpEngineFetch false (fun _ => none) (fun _ => none) "http://e.com/".data
        (some ⟨"http".data, "e.com".data⟩)
        (fun _ => .ok (HTTPResp.mk 200 [] [] "ABCDE".data)) 3 =
      .result (errorResponse "http://e.com/".data "http".data (tooLargeMsg 3))
        (some (tooLargeMsg 3)) := by
  have h := http_fetch_truncation_behavior "ABCDE".data 3 (by decide) (by decide)
  exact ⟨h.1, h.2.1, h.2.2 (fun _ => none) (fun _ => none) "http://e.com/".data
    ⟨"http".data, "e.com".data⟩ [] [] (Or.inl rfl)⟩

/-- Claim C10: with a non-negative maxContentLength the body read never takes
the out-of-range truncation (no panic); with a negative maxContentLength the
limited read returns an empty body whose length still exceeds the cap, so the
truncation index is out of range (a runtime panic), and request normalization
lets negative values through (only the exact value 0 is replaced by the
default). -/
theorem read_body_truncation_safety (stream : List Char) (maxLen : Int) :
    (0 ≤ maxLen → readResponseBody stream maxLen ≠ .panicked) ∧
    (maxLen < 0 → readResponseBody stream maxLen = .panicked ∧
      normalizeMaxContentLength maxLen = maxLen) := by
  constructor
  · intro h0
    unfold readResponseBody
    by_cases hc : maxLen < ((intTake stream (maxLen + 1)).length : Int)
    · rw [if_pos hc, if_neg (by omega)]
      simp
    · rw [if_neg hc]
      simp
  · intro hneg
    have hbody : intTake stream (maxLen + 1) = [] := by
      unfold intTake
      rw [if_pos (by omega)]
    constructor
    · unfold readResponseBody
      rw [hbody, if_pos (by simpa using hneg), if_pos hneg]
    · unfold normalizeMaxContentLength
      rw [if_neg (by omega)]

/-- Concrete instance of `read_body_truncation_safety`: a 3-byte body with
maxContentLength 2 (no panic) and with maxContentLength -1 (panic, and the
normalization keeps -1). -/
theorem read_body_truncation_safety_witness :
    readResponseBody "abc".data 2 ≠ .panicked ∧
    (readResponseBody "abc".data (-1) = .panicked ∧
      normalizeMaxContentLength (-1) = -1) :=
  ⟨(read_body_truncation_safety "abc".data 2).1 (by decide),
   (read_body_truncation_safety "abc".data (-1)).2 (by decide)⟩

/-- Claim C4 counterexample: a chain of exactly 5 redirects does not reach the
final response; the client stops with the too-many-redirects error of the
`CheckRedirect` hook installed by `NewHTTPEngine`. -/
theorem redirect_limit_counterexample :
    clientRedirectLoop (netChain 5) 0 0 10 = .error "too many redirects".data ∧
    clientRedirectLoop (netChain 5) 0 0 10 ≠ .ok 200 := by decide

/-- Claim C4 (amended): the client follows at most 4 redirect hops (5 requests
in total): a chain of up to 4 redirects returns the final response, and any
chain needing a 5th redirect hop fails with the too-many-redirects error,
because `CheckRedirect` rejects as soon as 5 requests are in `via`. -/
theorem redirect_limit_behavior (n : Nat) :
    (n ≤ 4 → clientRedirectLoop (netChain n) 0 0 6 = .ok 200) ∧
    (5 ≤ n → clientRedirectLoop (netChain n) 0 0 6 = .error "too many redirects".data) := by
  constructor
  · intro h
    interval_cases n <;> decide
  · intro h
    have h0 : 0 < n := by omega
    have h1 : 1 < n := by omega
    have h2 : 2 < n := by omega
    have h3 : 3 < n := by omega
    have h4 : 4 < n := by omega
    simp [clientRedirectLoop, netChain, checkRedirectStops, h0, h1, h2, h3, h4]

/-- Concrete instances of `redirect_limit_behavior`: a 4-redirect chain
succeeds, a 7-redirect chain fails. -/
theorem redirect_limit_behavior_witness :
    clientRedirectLoop (netChain 4) 0 0 6 = .ok 200 ∧
    clientRedirectLoop (netChain 7) 0 0 6 = .error "too many redirects".data :=
  ⟨(redirect_limit_behavior 4).1 (by decide), (redirect_limit_behavior 7).2 (by decide)⟩

/-- Claim C7: a request whose normalized engine is chrome, on a host where the
browser probe reports unavailable, yields (when the orchestrator returns a
response at all) a response marked with engine http and a non-empty warning
list containing the fallback warning. -/
theorem chrome_fallback_warning
    (req : FetchRequest) (httpResult chromeResult : Option FetchResponse × Option (List Char))
    (r : FetchResponse)
    (hengine : (normalizeRequest req).engine = "chrome".data)
    (hresp : (fetcherFetch false httpResult chromeResult req).1 = some r) :
    r.engine = "http".data ∧ r.warnings ≠ [] ∧ fallbackWarning ∈ r.warnings := by
  have hne : ("chrome".data : List Char) ≠ "http".data := by decide
  obtain ⟨hr, he⟩ := httpResult
  cases hr with
  | none =>
    cases he with
    | none => simp [fetcherFetch, hengine, hne] at hresp
    | some e => simp [fetcherFetch, hengine, hne] at hresp
  | some resp =>
    cases he with
    | none =>
      simp only [fetcherFetch, hengine, hne, if_false, if_true, if_neg hne] at hresp
      simp at hresp
      rw [← hresp]
      refine ⟨rfl, by simp, by simp⟩
    | some e =>
      simp only [fetcherFetch, hengine, hne, if_false, if_true, if_neg hne] at hresp
      simp at hresp
      rw [← hresp]
      refine ⟨rfl, by simp, by simp⟩

/-- Concrete instance of `chrome_fallback_warning`: a chrome request falling
back over a successful HTTP result. -/
theorem chrome_fallback_warning_witness :
    ({ url := "u".data, engine := "http".data, statusCode := 200, content := "c".data,
       format := "text".data, warnings := [fallbackWarning],
       chromeAvailable := false } : FetchResponse).engine = "http".data ∧
    ({ url := "u".data, engine := "http".data, statusCode := 200, content := "c".data,
       format := "text".data, warnings := [fallbackWarning],
       chromeAvailable := false } : FetchResponse).warnings ≠ [] ∧
    fallbackWarning ∈
      ({ url := "u".data, engine := "http".data, statusCode := 200, content := "c".data,
         format := "text".data, warnings := [fallbackWarning],
         chromeAvailable := false } : FetchResponse).warnings := by
  have h := chrome_fallback_warning
    { url := "u".data, engine := "chrome".data, format := "text".data, maxContentLength := 1 }
    (some { url := "u".data, engine := "chrome".data, statusCode := 200,
            content := "c".data, format := "html".data }, none)
    (none, none)
    { url := "u".data, engine := "http".data, statusCode := 200, content := "c".data,
      format := "text".data, warnings := [fallbackWarning], chromeAvailable := false }
    (by decide) (by decide)
  exact h

/-- Claim C9: in the token-counting model of the browser pool, every reachable
state keeps the free tokens plus the active fetches equal to the pool size, so
at most `size` browser fetches are active at any instant; the remaining
launched fetches are in the waiting count. -/
theorem pool_bounded (size : Nat) (s : PoolState) (h : PoolReach size s) :
    s.free + s.active = size ∧ s.active ≤ size := by
  have hsum : s.free + s.active = size := by
    induction h with
    | init => rfl
    | step hr hstep ih =>
      cases hstep with
      | launch => simpa using ih
      | acquire hf hw => simp only []; omega
      | release ha => simp only []; omega
  exact ⟨hsum, by omega⟩

/-- Concrete instance of `pool_bounded`: after one launch on a fresh pool of
size 2, one fetch is waiting, none active, and the bound holds. -/
theorem pool_bounded_witness :
    (PoolState.mk 2 0 1).free + (PoolState.mk 2 0 1).active = 2 ∧
    (PoolState.mk 2 0 1).active ≤ 2 :=
  pool_bounded 2 ⟨2, 0, 1⟩ (.step .init (.launch ⟨2, 0, 0⟩))

/-- The first element surviving `dropWhile` does not satisfy the predicate. -/
theorem dropWhile_head_not (p : Char → Bool) (l : List Char) (c : Char)
    (h : (l.dropWhile p).head? = some c) : p c = false := by
  induction l with
  | nil => simp at h
  | cons a t ih =>
    rw [List.dropWhile_cons] at h
    by_cases hp : p a
    · simp [hp] at h
      exact ih h
    · simp [hp] at h
      subst h
      simpa using hp

/-- The last element of a `dropWhile` result is the last element of the input. -/
theorem dropWhile_getLast_keep (p : Char → Bool) (l : List Char) (c : Char)
    (h : (l.dropWhile p).getLast? = some c) : l.getLast? = some c := by
  induction l with
  | nil => simp at h
  | cons a t ih =>
    rw [List.dropWhile_cons] at h
    by_cases hp : p a
    · simp only [hp, if_true] at h
      have ht := ih h
      cases t with
      | nil => simp at ht
      | cons b u => rw [List.getLast?_cons_cons]; exact ht
    · simpa [hp] using h

/-- A trimmed list does not start with white space. -/
theorem trimSeg_head_not (s : List Char) (c : Char)
    (h : (trimSeg s).head? = some c) : isGoSpace c = false := by
  unfold trimSeg at h
  rw [List.head?_reverse] at h
  have h2 := dropWhile_getLast_keep isGoSpace _ c h
  rw [List.getLast?_reverse] at h2
  exact dropWhile_head_not isGoSpace _ c h2

/-- A trimmed list does not end with white space. -/
theorem trimSeg_getLast_not (s : List Char) (c : Char)
    (h : (trimSeg s).getLast? = some c) : isGoSpace c = false := by
  unfold trimSeg at h
  rw [List.getLast?_reverse] at h
  exact dropWhile_head_not isGoSpace _ c h

/-- Claim C8 counterexample: rendering `<p>x</p><p>y</p>` leaves a run of three
newlines in the output (the four newlines between the paragraphs collapse to
three, not two, in the single replacement pass). -/
theorem markdown_newline_collapse_counterexample :
    htmlToMarkdown docTwoPars = "x\n\n\ny".data ∧
    hasSeg "\n\n\n".data (htmlToMarkdown docTwoPars) = true := by decide

/-- Claim C8 (amended): the renderer output is the rendered document after one
non-overlapping left-to-right pass replacing three newlines by two, then a trim;
it therefore has no leading or trailing whitespace, but runs of four or more
newlines can leave runs of three. -/
theorem markdown_output_trimmed (roots : List HNode) :
    htmlToMarkdown roots =
      trimSeg (replaceSeg "\n\n\n".data "\n\n".data (renderNodes 0 [] roots)) ∧
    (∀ c, (htmlToMarkdown roots).head? = some c → isGoSpace c = false) ∧
    (∀ c, (htmlToMarkdown roots).getLast? = some c → isGoSpace c = false) := by
  refine ⟨rfl, ?_, ?_⟩
  · intro c h
    exact trimSeg_head_not _ c h
  · intro c h
    exact trimSeg_getLast_not _ c h

/-- Concrete instance of `markdown_output_trimmed`: the output for
`<p>x</p><p>y</p>` starts with `x` and ends with `y`, neither of which is
white space. -/
theorem markdown_output_trimmed_witness :
    isGoSpace 'x' = false ∧ isGoSpace 'y' = false :=
  ⟨(markdown_output_trimmed docTwoPars).2.1 'x' (by decide),
   (markdown_output_trimmed docTwoPars).2.2 'y' (by decide)⟩

/-- Claim C3 counterexample: the Markdown rendering of
`<h1>A</h1><p>B <strong>C</strong></p>` is `# A\n\n\nB**C**`; it does not
contain the substring `B **C**`, because each text node is trimmed and the
space before `<strong>` is dropped. -/
theorem markdown_example_counterexample :
    htmlToMarkdown docC3 = "# A\n\n\nB**C**".data ∧
    hasSeg "B **C**".data (htmlToMarkdown docC3) = false := by decide

/-- Claim C3 (amended): the Markdown rendering of
`<h1>A</h1><p>B <strong>C</strong></p>` contains `# A` and `B**C**` (with no
space before the bold markers), and blank lines (three newlines) separate the
heading from the paragraph. -/
theorem markdown_example_rendering :
    htmlToMarkdown docC3 = "# A".data ++ "\n\n\n".data ++ "B**C**".data ∧
    hasSeg "# A".data (htmlToMarkdown docC3) = true ∧
    hasSeg "B**C**".data (htmlToMarkdown docC3) = true ∧
    hasSeg "# A\n\n".data (htmlToMarkdown docC3) = true := by decide
